import Mathlib

/-!
Shallow embedding of the agent execution engine
(`src/types/agent.ts` and `src/engine/AgentExecutor.ts`).

Modelling conventions:
* JavaScript runtime values supplied as tool parameters are one of the three
  primitive kinds the data model admits (string | number | boolean); they are
  embedded as the inductive `Value`.  Numbers are embedded as `Int`
  (the properties at stake only use ordered comparison against `min`/`max`).
* A parameter bag (`Record<string, ...>`) is embedded as a lookup function
  `String → Option Value`; `undefined` is `none`.
* `Object.entries(tool.parameters)` enumerates the schema in declaration
  order, so a tool's parameter schema is an ordered association list.
* Asynchronous suspension and wall-clock timestamps are immaterial to the
  verified properties: `Message.timestamp` is omitted, `await` points become
  ordinary sequencing.
* A tool body (`execute`) either returns a success text or raises an error
  carrying a message; it is embedded as `Params → Except String String`.
* The decision oracle (`callLLM`, the external adapter) is passed to `run`
  explicitly as a function of exactly the data the source passes it
  (prompt, transcript, tool catalog); it may also raise, hence `Except`.
* The executor's mutable fields (`messages`, `isRunning`) become an explicit
  state `ExecState`; `run` returns its result together with the state left
  behind on that exit path (the `finally` clause of the source is reflected
  in every returned state).
-/

/-- Role of a `Message` (closed union in `agent.ts`). -/
inductive Role where
  | system
  | user
  | assistant
  | tool
deriving DecidableEq, Repr

/-- A primitive runtime value (string | number | boolean). -/
inductive Value where
  | str (s : String)
  | num (n : Int)
  | bool (b : Bool)
deriving DecidableEq, Repr

/-- True when the JS typeof of the value is string. -/
def Value.isStr : Value → Bool
  | .str _ => true
  | _ => false

/-- True when the JS typeof of the value is number. -/
def Value.isNum : Value → Bool
  | .num _ => true
  | _ => false

/-- True when the JS typeof of the value is boolean. -/
def Value.isBool : Value → Bool
  | .bool _ => true
  | _ => false

/-- Discriminator of a `ToolParameter` (string | number | boolean). -/
inductive ParamType where
  | string
  | number
  | boolean
deriving DecidableEq, Repr

/-- One declared parameter (`StringParam | NumberParam | BooleanParam` of
`agent.ts`, flattened: `min`/`max` are only ever consulted when `type` is
`number`, mirroring the guard in the validator).  `required?: boolean` with
`undefined` behaving as `false` becomes a `Bool` defaulting to `false`.
The `default` field of the source is never read by the engine and is kept
as unconsulted metadata. -/
structure ToolParameter where
  type : ParamType
  description : String := ""
  required : Bool := false
  defaultVal : Option Value := none
  min : Option Int := none
  max : Option Int := none

/-- A parameter bag: `Record<string, value>` with `undefined` as `none`. -/
abbrev Params := String → Option Value

/-- A tool (`Tool` of `agent.ts`): name, description, ordered parameter
schema, and the `execute` capability. -/
structure Tool where
  name : String
  description : String := ""
  parameters : List (String × ToolParameter)
  execute : Params → Except String String

/-- An agent configuration (`Agent` of `agent.ts`); the `createdAt` /
`updatedAt` timestamps are never read by the engine and are omitted. -/
structure Agent where
  id : String := ""
  name : String := ""
  prompt : String
  tools : List Tool

/-- One transcript entry (`Message` of `agent.ts`, minus the wall-clock
`timestamp`). -/
structure Message where
  role : Role
  content : String
  toolName : Option String := none
  toolResult : Option String := none
deriving DecidableEq, Repr

/-- A tool call request produced by the oracle (`ToolCall`). -/
structure ToolCall where
  toolName : String
  parameters : Params

/-- Result of dispatching one tool call (`ToolResult`). -/
structure ToolResult where
  toolName : String
  success : Bool
  result : Option String := none
  error : Option String := none
deriving DecidableEq, Repr

/-- Return shape of `validateParameters`: `{ valid: boolean; error?: string }`. -/
structure ValidationResult where
  valid : Bool
  error : Option String := none
deriving DecidableEq, Repr

/-- The loop body of `validateParameters` over `Object.entries(tool.parameters)`,
checking each declared parameter in order and returning at the first
violation.  Each arm mirrors one early `return` of the source. -/
def validateEntries (parameters : Params) :
    List (String × ToolParameter) → ValidationResult
  | [] => { valid := true }
  | (paramName, paramSchema) :: rest =>
    let value := parameters paramName
    -- Check required parameters
    if paramSchema.required && value.isNone then
      { valid := false,
        error := some ("Missing required parameter: " ++ paramName) }
    else
      match value with
      | none => validateEntries parameters rest
      | some v =>
        -- Type checking
        if paramSchema.type = ParamType.number ∧ ¬ v.isNum then
          { valid := false,
            error := some ("Parameter " ++ paramName ++ " must be a number") }
        else if paramSchema.type = ParamType.string ∧ ¬ v.isStr then
          { valid := false,
            error := some ("Parameter " ++ paramName ++ " must be a string") }
        else if paramSchema.type = ParamType.boolean ∧ ¬ v.isBool then
          { valid := false,
            error := some ("Parameter " ++ paramName ++ " must be a boolean") }
        else
          -- Range validation for numbers
          match paramSchema.type, v with
          | ParamType.number, Value.num n =>
            match paramSchema.min with
            | some mn =>
              if n < mn then
                { valid := false,
                  error := some ("Parameter " ++ paramName ++
                    " must be >= " ++ toString mn) }
              else
                match paramSchema.max with
                | some mx =>
                  if n > mx then
                    { valid := false,
                      error := some ("Parameter " ++ paramName ++
                        " must be <= " ++ toString mx) }
                  else validateEntries parameters rest
                | none => validateEntries parameters rest
            | none =>
              match paramSchema.max with
              | some mx =>
                if n > mx then
                  { valid := false,
                    error := some ("Parameter " ++ paramName ++
                      " must be <= " ++ toString mx) }
                else validateEntries parameters rest
              | none => validateEntries parameters rest
          | _, _ => validateEntries parameters rest

/-- Function `validateParameters(tool, parameters)` of `AgentExecutor.ts`. -/
def validateParameters (tool : Tool) (parameters : Params) : ValidationResult :=
  validateEntries parameters tool.parameters

/-- Method `executeTool(toolCall)` of `AgentExecutor.ts`: lookup by exact name,
validate, then run the body with the try/catch folded into `Except`.
The `catch` arm's `error.message` is the `String` carried by the body's
`Except.error`. -/
def executeTool (agent : Agent) (toolCall : ToolCall) : ToolResult :=
  match agent.tools.find? (fun t => t.name == toolCall.toolName) with
  | none =>
    { toolName := toolCall.toolName,
      success := false,
      error := some ("Tool \"" ++ toolCall.toolName ++ "\" not found") }
  | some tool =>
    let validation := validateParameters tool toolCall.parameters
    if validation.valid = false then
      { toolName := toolCall.toolName,
        success := false,
        error := validation.error }
    else
      match tool.execute toolCall.parameters with
      | Except.ok result =>
        { toolName := toolCall.toolName,
          success := true,
          result := some result }
      | Except.error e =>
        { toolName := toolCall.toolName,
          success := false,
          error := some e }

/-- The oracle's decision (`{ text?: string; toolCall?: ToolCall }`, the
return shape of `callLLM`). -/
structure LLMResponse where
  text : Option String := none
  toolCall : Option ToolCall := none

/-- The decision oracle boundary: `callLLM(prompt, messages, availableTools)`.
It is an external collaborator; `run` awaits it and it may raise, so it is
embedded as a function of exactly the arguments the source passes, into
`Except` (the error case is the adapter throwing). -/
abbrev Oracle := String → List Message → List Tool → Except String LLMResponse

/-- Errors that escape `run` to its caller: the synchronous
already-running guard throw, and an error thrown
by the oracle adapter (which the source does not catch). -/
inductive RunError where
  | alreadyRunning
  | oracleError (e : String)
deriving DecidableEq, Repr

/-- The executor's mutable fields: `private messages: Message[]` and
`private isRunning = false`. -/
structure ExecState where
  messages : List Message
  isRunning : Bool
deriving DecidableEq, Repr

/-- Method `initializeMessages()`: the transcript holding the single system message
derived from `agent.prompt`. -/
def initializeMessages (agent : Agent) : List Message :=
  [{ role := Role.system, content := agent.prompt }]

/-- The constructor `new AgentExecutor(agent)`: fresh transcript, flag down. -/
def initState (agent : Agent) : ExecState :=
  { messages := initializeMessages agent, isRunning := false }

/-- The user message `run` pushes first. -/
def userMsg (content : String) : Message :=
  { role := Role.user, content := content }

/-- The assistant message built from oracle text. -/
def assistantMsg (text : String) : Message :=
  { role := Role.assistant, content := text }

/-- The tool message `run` builds from a `ToolResult`: content is the result
text on success (`toolResult.result!` — always set by `executeTool` on
success, `getD ""` models the non-null assertion) or
`` `Error: ${toolResult.error}` `` on failure (JS renders a missing field as
the text `undefined`); `toolResult` is set only on success. -/
def toolMsg (tr : ToolResult) : Message :=
  { role := Role.tool,
    content :=
      if tr.success then tr.result.getD ""
      else
        match tr.error with
        | some e => "Error: " ++ e
        | none => "Error: undefined",
    toolName := some tr.toolName,
    toolResult := if tr.success then tr.result else none }

/-- Method `run(userMessage)` of `AgentExecutor.ts`.  Returns the result the caller
sees (`Except`) paired with the executor state left behind: the source's
`try/finally` guarantees `isRunning = false` in the state of every exit path
past the guard, and the guard itself throws before touching any state. -/
def run (agent : Agent) (oracle : Oracle) (st : ExecState)
    (userMessage : String) : Except RunError (List Message) × ExecState :=
  if st.isRunning then
    (Except.error RunError.alreadyRunning, st)
  else
    -- this.isRunning = true; try { ... } finally { this.isRunning = false }
    let messages1 := st.messages ++ [userMsg userMessage]
    match oracle agent.prompt messages1 agent.tools with
    | Except.error e =>
      (Except.error (RunError.oracleError e),
       { messages := messages1, isRunning := false })
    | Except.ok llmResponse =>
      match llmResponse.toolCall with
      | some toolCall =>
        let toolResult := executeTool agent toolCall
        let messages2 := messages1 ++ [toolMsg toolResult]
        -- Get final LLM response after tool execution
        match oracle agent.prompt messages2 agent.tools with
        | Except.error e =>
          (Except.error (RunError.oracleError e),
           { messages := messages2, isRunning := false })
        | Except.ok finalResponse =>
          match finalResponse.text with
          | some t =>
            let messages3 := messages2 ++ [assistantMsg t]
            (Except.ok messages3, { messages := messages3, isRunning := false })
          | none =>
            (Except.ok messages2, { messages := messages2, isRunning := false })
      | none =>
        match llmResponse.text with
        | some t =>
          -- Direct text response
          let messages2 := messages1 ++ [assistantMsg t]
          (Except.ok messages2, { messages := messages2, isRunning := false })
        | none =>
          (Except.ok messages1, { messages := messages1, isRunning := false })

/-- Method `getMessages()` (value level; the copy-vs-alias distinction is treated in
the reference-level model below). -/
def getMessages (st : ExecState) : List Message :=
  st.messages

/-- Method `reset()` calls `this.initializeMessages()` — unconditional, with no guard on
`isRunning`, which it leaves untouched. -/
def reset (agent : Agent) (st : ExecState) : ExecState :=
  { st with messages := initializeMessages agent }

/-- Method `getTools()` (value level). -/
def getTools (agent : Agent) : List Tool :=
  agent.tools

/-- One rule violation, abstracting the validator's failure reasons: each
constructor records which parameter is named and the datum (kind or bound)
the reason mentions. -/
inductive Violation where
  | missingRequired (paramName : String)
  | typeMismatch (paramName : String) (kind : ParamType)
  | belowMin (paramName : String) (mn : Int)
  | aboveMax (paramName : String) (mx : Int)
deriving DecidableEq, Repr

/-- Does a runtime value's type match a declared kind exactly? -/
def kindMatches : ParamType → Value → Bool
  | ParamType.string, Value.str _ => true
  | ParamType.number, Value.num _ => true
  | ParamType.boolean, Value.bool _ => true
  | _, _ => false

/-- Modelled from the spec (§4.1): the first rule one declared parameter
violates, checking the spec's numbered steps in order — required, then exact
runtime-type match against the kind, then numeric bounds (bounds only when a
value is present). -/
def specCheckParam (supplied : Params) (paramName : String)
    (p : ToolParameter) : Option Violation :=
  match supplied paramName with
  | none => if p.required then some (Violation.missingRequired paramName) else none
  | some v =>
    if ¬ kindMatches p.type v then
      some (Violation.typeMismatch paramName p.type)
    else
      match p.type, v with
      | ParamType.number, Value.num n =>
        match p.min with
        | some mn =>
          if n < mn then some (Violation.belowMin paramName mn)
          else
            match p.max with
            | some mx =>
              if n > mx then some (Violation.aboveMax paramName mx) else none
            | none => none
        | none =>
          match p.max with
          | some mx =>
            if n > mx then some (Violation.aboveMax paramName mx) else none
          | none => none
      | _, _ => none

/-- Modelled from the spec (§4.1): first violation wins, in declaration
order, no aggregation. -/
def specFirstViolation (decls : List (String × ToolParameter))
    (supplied : Params) : Option Violation :=
  decls.findSome? (fun d => specCheckParam supplied d.1 d.2)

/-- The reason text the code produces for each violation; by construction it
names the parameter, and the kind or bound involved. -/
def renderViolation : Violation → String
  | Violation.missingRequired n => "Missing required parameter: " ++ n
  | Violation.typeMismatch n ParamType.number => "Parameter " ++ n ++ " must be a number"
  | Violation.typeMismatch n ParamType.string => "Parameter " ++ n ++ " must be a string"
  | Violation.typeMismatch n ParamType.boolean => "Parameter " ++ n ++ " must be a boolean"
  | Violation.belowMin n mn => "Parameter " ++ n ++ " must be >= " ++ toString mn
  | Violation.aboveMax n mx => "Parameter " ++ n ++ " must be <= " ++ toString mx

/-!
Reference-level model of the two getter methods.  JavaScript arrays are
heap references; `getMessages()` evaluates `[...this.messages]` (a fresh
array initialised with the elements of the internal one) while `getTools()`
evaluates `this.agent.tools` (the internal array itself).  Arrays live in
stores indexed by `Nat` references; the executor holds the references
`msgRef` (this.messages) and `toolsRef` (this.agent.tools); `nextRef` is the
allocator for fresh arrays, every live reference being below it.
-/
structure RefState where
  msgStore : Nat → List Message
  toolStore : Nat → List Tool
  msgRef : Nat
  toolsRef : Nat
  nextRef : Nat

/-- Method `getMessages()` evaluates `return [...this.messages]` — allocate a fresh array whose
contents copy the internal transcript and return the fresh reference. -/
def getMessagesRef (s : RefState) : Nat × RefState :=
  (s.nextRef,
   { s with
     msgStore := fun r => if r = s.nextRef then s.msgStore s.msgRef else s.msgStore r,
     nextRef := s.nextRef + 1 })

/-- Method `getTools()` evaluates `return this.agent.tools` — the internal array reference
itself, no copy. -/
def getToolsRef (s : RefState) : Nat :=
  s.toolsRef

/-- A caller mutating (in place) the message array behind reference `r`. -/
def writeMsgArray (s : RefState) (r : Nat) (v : List Message) : RefState :=
  { s with msgStore := fun x => if x = r then v else s.msgStore x }

/-- A caller mutating (in place) the tool array behind reference `r`. -/
def writeToolArray (s : RefState) (r : Nat) (v : List Tool) : RefState :=
  { s with toolStore := fun x => if x = r then v else s.toolStore x }

/-- The transcript as the executor itself observes it. -/
def internalTranscript (s : RefState) : List Message :=
  s.msgStore s.msgRef

/-- The tool list as the executor itself observes it. -/
def internalTools (s : RefState) : List Tool :=
  s.toolStore s.toolsRef

/-! Concrete fixtures used by witnesses and counterexamples. -/

/-- A concrete tool: one required string parameter `text`; echoes it back,
raising on the empty string. -/
def tool0 : Tool :=
  { name := "echo",
    description := "echoes its input",
    parameters := [("text", { type := ParamType.string, required := true })],
    execute := fun p =>
      match p "text" with
      | some (Value.str s) =>
        if s = "" then Except.error "empty input" else Except.ok s
      | _ => Except.error "no text" }

/-- A concrete agent with no tools. -/
def agent0 : Agent :=
  { prompt := "goal", tools := [] }

/-- A concrete agent owning `tool0`. -/
def agent1 : Agent :=
  { prompt := "goal", tools := [tool0] }

/-- A concrete oracle that always answers with text. -/
def oracle0 : Oracle :=
  fun _ _ _ => Except.ok { text := some "ok" }

/-- A concrete decision naming a tool that does not exist. -/
def tcall0 : ToolCall :=
  { toolName := "doesNotExist", parameters := fun _ => none }

/-- A concrete call of `tool0` whose body raises (`text` bound to `""`). -/
def tcallEmpty : ToolCall :=
  { toolName := "echo",
    parameters := fun n => if n = "text" then some (Value.str "") else none }

/-- A concrete oracle: requests `tcall0` on the first (decide) call, answers
with text on the second (summarize) call. -/
def oracleTC : Oracle :=
  fun _ msgs _ =>
    if msgs.length = 1 then Except.ok { toolCall := some tcall0 }
    else Except.ok { text := some "done" }

/-- A concrete oracle that returns a malformed outcome: neither text nor
tool call. -/
def oracleEmpty : Oracle :=
  fun _ _ _ => Except.ok {}

/-- The idle executor state over the empty transcript. -/
def st0 : ExecState :=
  { messages := [], isRunning := false }

/-- A mid-run state: two messages, flag up. -/
def stRunning : ExecState :=
  { messages := [{ role := Role.system, content := "goal" },
                 { role := Role.user, content := "hi" }],
    isRunning := true }

/-- A concrete reference state: transcript cell 0, tool cell 1, allocator
at 2; both arrays initially empty. -/
def refState0 : RefState :=
  { msgStore := fun _ => [],
    toolStore := fun _ => [],
    msgRef := 0,
    toolsRef := 1,
    nextRef := 2 }

/-! Branch lemmas for `run`, one per exit path of the source. -/

theorem run_guard (agent : Agent) (oracle : Oracle) (st : ExecState)
    (x : String) (h : st.isRunning = true) :
    run agent oracle st x = (Except.error RunError.alreadyRunning, st) := by
  simp [run, h]

theorem run_decide_error (agent : Agent) (oracle : Oracle) (st : ExecState)
    (x : String) (e : String) (h : st.isRunning = false)
    (hor : oracle agent.prompt (st.messages ++ [userMsg x]) agent.tools =
      Except.error e) :
    run agent oracle st x =
      (Except.error (RunError.oracleError e),
       { messages := st.messages ++ [userMsg x], isRunning := false }) := by
  simp [run, h, hor]

theorem run_direct_text (agent : Agent) (oracle : Oracle) (st : ExecState)
    (x : String) (r : LLMResponse) (t : String) (h : st.isRunning = false)
    (hor : oracle agent.prompt (st.messages ++ [userMsg x]) agent.tools =
      Except.ok r)
    (htc : r.toolCall = none) (htx : r.text = some t) :
    run agent oracle st x =
      (Except.ok (st.messages ++ [userMsg x, assistantMsg t]),
       { messages := st.messages ++ [userMsg x, assistantMsg t],
         isRunning := false }) := by
  simp [run, h, hor, htc, htx]

theorem run_malformed (agent : Agent) (oracle : Oracle) (st : ExecState)
    (x : String) (r : LLMResponse) (h : st.isRunning = false)
    (hor : oracle agent.prompt (st.messages ++ [userMsg x]) agent.tools =
      Except.ok r)
    (htc : r.toolCall = none) (htx : r.text = none) :
    run agent oracle st x =
      (Except.ok (st.messages ++ [userMsg x]),
       { messages := st.messages ++ [userMsg x], isRunning := false }) := by
  simp [run, h, hor, htc, htx]

theorem run_tool_sum_error (agent : Agent) (oracle : Oracle) (st : ExecState)
    (x : String) (r : LLMResponse) (tc : ToolCall) (e : String)
    (h : st.isRunning = false)
    (hor : oracle agent.prompt (st.messages ++ [userMsg x]) agent.tools =
      Except.ok r)
    (htc : r.toolCall = some tc)
    (hsum : oracle agent.prompt
        (st.messages ++ [userMsg x, toolMsg (executeTool agent tc)])
        agent.tools = Except.error e) :
    run agent oracle st x =
      (Except.error (RunError.oracleError e),
       { messages := st.messages ++ [userMsg x, toolMsg (executeTool agent tc)],
         isRunning := false }) := by
  simp [run, h, hor, htc, hsum]

theorem run_tool_text (agent : Agent) (oracle : Oracle) (st : ExecState)
    (x : String) (r : LLMResponse) (tc : ToolCall) (f : LLMResponse)
    (t : String) (h : st.isRunning = false)
    (hor : oracle agent.prompt (st.messages ++ [userMsg x]) agent.tools =
      Except.ok r)
    (htc : r.toolCall = some tc)
    (hsum : oracle agent.prompt
        (st.messages ++ [userMsg x, toolMsg (executeTool agent tc)])
        agent.tools = Except.ok f)
    (htx : f.text = some t) :
    run agent oracle st x =
      (Except.ok (st.messages ++
        [userMsg x, toolMsg (executeTool agent tc), assistantMsg t]),
       { messages := st.messages ++
          [userMsg x, toolMsg (executeTool agent tc), assistantMsg t],
         isRunning := false }) := by
  simp [run, h, hor, htc, hsum, htx]

theorem run_tool_silent (agent : Agent) (oracle : Oracle) (st : ExecState)
    (x : String) (r : LLMResponse) (tc : ToolCall) (f : LLMResponse)
    (h : st.isRunning = false)
    (hor : oracle agent.prompt (st.messages ++ [userMsg x]) agent.tools =
      Except.ok r)
    (htc : r.toolCall = some tc)
    (hsum : oracle agent.prompt
        (st.messages ++ [userMsg x, toolMsg (executeTool agent tc)])
        agent.tools = Except.ok f)
    (htx : f.text = none) :
    run agent oracle st x =
      (Except.ok (st.messages ++ [userMsg x, toolMsg (executeTool agent tc)]),
       { messages := st.messages ++ [userMsg x, toolMsg (executeTool agent tc)],
         isRunning := false }) := by
  simp [run, h, hor, htc, hsum, htx]

/-- C1: invoking `run` while a previous invocation on the same executor has
not completed fails with `AlreadyRunning` and leaves the transcript (indeed
the whole state) unchanged; and on every exit path past the guard — normal
return, tool failure folded into the transcript, or an error thrown by the
oracle adapter — the `Running` flag is `false` in the state handed back. -/
theorem run_single_flight_flag_reset (agent : Agent) (oracle : Oracle)
    (st : ExecState) (x : String) :
    (st.isRunning = true →
      run agent oracle st x = (Except.error RunError.alreadyRunning, st)) ∧
    (st.isRunning = false → ((run agent oracle st x).2).isRunning = false) := by
  constructor
  · intro h
    exact run_guard agent oracle st x h
  · intro h
    cases hor : oracle agent.prompt (st.messages ++ [userMsg x]) agent.tools with
    | error e => rw [run_decide_error agent oracle st x e h hor]
    | ok r =>
      cases htc : r.toolCall with
      | none =>
        cases htx : r.text with
        | none => rw [run_malformed agent oracle st x r h hor htc htx]
        | some t => rw [run_direct_text agent oracle st x r t h hor htc htx]
      | some tc =>
        cases hsum : oracle agent.prompt
            (st.messages ++ [userMsg x, toolMsg (executeTool agent tc)])
            agent.tools with
        | error e => rw [run_tool_sum_error agent oracle st x r tc e h hor htc hsum]
        | ok f =>
          cases htx : f.text with
          | none => rw [run_tool_silent agent oracle st x r tc f h hor htc hsum htx]
          | some t => rw [run_tool_text agent oracle st x r tc f t h hor htc hsum htx]

/-- C1 witness: the guard fires at a concrete busy state; a concrete idle
run hands back the flag down. -/
theorem run_single_flight_flag_reset_witness :
    run agent0 oracle0 stRunning "hi" =
      (Except.error RunError.alreadyRunning, stRunning) ∧
    ((run agent0 oracle0 st0 "hi").2).isRunning = false :=
  ⟨(run_single_flight_flag_reset agent0 oracle0 stRunning "hi").1 rfl,
   (run_single_flight_flag_reset agent0 oracle0 st0 "hi").2 rfl⟩

/-- C9: `reset` yields a transcript of length exactly 1 whose single entry
is the system message carrying the agent's prompt; from any completed-run
state (flag down) it is exactly the construction state. -/
theorem reset_restores_initial (agent : Agent) (st : ExecState) :
    (reset agent st).messages =
      [{ role := Role.system, content := agent.prompt }] ∧
    ((reset agent st).messages).length = 1 ∧
    (st.isRunning = false → reset agent st = initState agent) := by
  refine ⟨rfl, rfl, ?_⟩
  intro h
  cases st with
  | mk msgs flag =>
    have h' : flag = false := h
    subst h'
    rfl

/-- C9 witness: resetting a concrete post-run state gives the construction
state. -/
theorem reset_restores_initial_witness :
    reset agent0 { messages := [userMsg "a", assistantMsg "b"],
                   isRunning := false } = initState agent0 :=
  (reset_restores_initial agent0
    { messages := [userMsg "a", assistantMsg "b"], isRunning := false }).2.2 rfl

/-- C10: a decision outcome with neither `toolCall` nor `text` makes `run`
complete normally, appending only the user message. -/
theorem run_malformed_decision_user_only (agent : Agent) (oracle : Oracle)
    (st : ExecState) (x : String) (r : LLMResponse)
    (h : st.isRunning = false)
    (hor : oracle agent.prompt (st.messages ++ [userMsg x]) agent.tools =
      Except.ok r)
    (htc : r.toolCall = none) (htx : r.text = none) :
    run agent oracle st x =
      (Except.ok (st.messages ++ [userMsg x]),
       { messages := st.messages ++ [userMsg x], isRunning := false }) :=
  run_malformed agent oracle st x r h hor htc htx

/-- C10 witness: an oracle answering `{}` leaves just the user message. -/
theorem run_malformed_decision_user_only_witness :
    run agent0 oracleEmpty st0 "hi" =
      (Except.ok [userMsg "hi"],
       { messages := [userMsg "hi"], isRunning := false }) :=
  run_malformed_decision_user_only agent0 oracleEmpty st0 "hi" {} rfl rfl rfl rfl

/-- C7 counterexample: at a concrete mid-run state (`Running` true), `reset`
is performed, not rejected or disallowed — the transcript changes. -/
theorem reset_mid_run_counterexample :
    stRunning.isRunning = true ∧ reset agent0 stRunning ≠ stRunning := by
  decide

/-- C7 amended: `reset` has no guard — it is performed unconditionally, even
while `Running` is true, reinitialising the transcript to the single system
message derived from the agent's prompt; it never throws and leaves the
`Running` flag exactly as it was. -/
theorem reset_unconditional (agent : Agent) (st : ExecState) :
    reset agent st =
      { messages := [{ role := Role.system, content := agent.prompt }],
        isRunning := st.isRunning } :=
  rfl

/-- C8 counterexample: `getTools` returns the internal array reference
itself, so a caller mutating the returned array mutates the executor's
internal tool list: at `refState0` the internal list is `[]`, and writing
`[tool0]` through the reference `getTools` returned makes the internal list
`[tool0]`. -/
theorem getTools_alias_counterexample :
    internalTools refState0 = [] ∧
    internalTools (writeToolArray refState0 (getToolsRef refState0) [tool0]) =
      [tool0] ∧
    internalTools (writeToolArray refState0 (getToolsRef refState0) [tool0]) ≠
      internalTools refState0 := by
  refine ⟨rfl, rfl, ?_⟩
  have h1 : internalTools
      (writeToolArray refState0 (getToolsRef refState0) [tool0]) = [tool0] := rfl
  have h2 : internalTools refState0 = [] := rfl
  rw [h1, h2]
  simp

/-- C8 amended: `getMessages` hands back a fresh copy — the returned
reference differs from the internal one (under the allocator invariant that
live references lie below `nextRef`), its contents equal the internal
transcript, and caller mutation through it leaves the internal transcript
unchanged; `getTools`, by contrast, returns the internal reference itself,
so caller mutation through it is mutation of the executor's tool list. -/
theorem getMessages_copy_getTools_alias (s : RefState) (v : List Message)
    (w : List Tool) (h : s.msgRef < s.nextRef) :
    (getMessagesRef s).1 ≠ s.msgRef ∧
    ((getMessagesRef s).2).msgStore (getMessagesRef s).1 =
      internalTranscript s ∧
    internalTranscript
      (writeMsgArray (getMessagesRef s).2 (getMessagesRef s).1 v) =
      internalTranscript s ∧
    getToolsRef s = s.toolsRef ∧
    internalTools (writeToolArray s (getToolsRef s) w) = w := by
  have hne : s.msgRef ≠ s.nextRef := Nat.ne_of_lt h
  refine ⟨?_, ?_, ?_, rfl, ?_⟩
  · simpa [getMessagesRef] using fun hc => hne hc.symm
  · simp [getMessagesRef, internalTranscript]
  · simp [getMessagesRef, writeMsgArray, internalTranscript, hne]
  · simp [writeToolArray, internalTools, getToolsRef]

/-- C8 amended-claim witness at `refState0`. -/
theorem getMessages_copy_getTools_alias_witness :
    (getMessagesRef refState0).1 ≠ refState0.msgRef ∧
    ((getMessagesRef refState0).2).msgStore (getMessagesRef refState0).1 =
      internalTranscript refState0 ∧
    internalTranscript
      (writeMsgArray (getMessagesRef refState0).2 (getMessagesRef refState0).1
        [userMsg "x"]) =
      internalTranscript refState0 ∧
    getToolsRef refState0 = refState0.toolsRef ∧
    internalTools (writeToolArray refState0 (getToolsRef refState0) [tool0]) =
      [tool0] :=
  getMessages_copy_getTools_alias refState0 [userMsg "x"] [tool0] (by decide)

/-! Validator lemmas. -/

theorem validateEntries_eq_spec (supplied : Params)
    (decls : List (String × ToolParameter)) :
    validateEntries supplied decls =
      (match specFirstViolation decls supplied with
       | none => { valid := true }
       | some viol =>
         { valid := false, error := some (renderViolation viol) }) := by
  induction decls with
  | nil => rfl
  | cons d rest ih =>
    obtain ⟨paramName, p⟩ := d
    cases hv : supplied paramName with
    | none =>
      cases hreq : p.required with
      | true =>
        simp [validateEntries, specFirstViolation, specCheckParam, hv, hreq,
          renderViolation]
      | false =>
        simpa [validateEntries, specFirstViolation, specCheckParam, hv, hreq]
          using ih
    | some v =>
      cases v with
      | num n =>
        cases hpt : p.type with
        | number =>
          cases hmn : p.min with
          | some mn =>
            by_cases hlt : n < mn
            · simp [validateEntries, specFirstViolation, specCheckParam, hv,
                hpt, hmn, hlt, renderViolation, kindMatches, Value.isNum]
            · cases hmx : p.max with
              | some mx =>
                by_cases hgt : n > mx
                · simp [validateEntries, specFirstViolation, specCheckParam,
                    hv, hpt, hmn, hmx, hlt, hgt, renderViolation, kindMatches,
                    Value.isNum]
                · simpa [validateEntries, specFirstViolation, specCheckParam,
                    hv, hpt, hmn, hmx, hlt, hgt, kindMatches, Value.isNum]
                    using ih
              | none =>
                simpa [validateEntries, specFirstViolation, specCheckParam,
                  hv, hpt, hmn, hmx, hlt, kindMatches, Value.isNum] using ih
          | none =>
            cases hmx : p.max with
            | some mx =>
              by_cases hgt : n > mx
              · simp [validateEntries, specFirstViolation, specCheckParam, hv,
                  hpt, hmn, hmx, hgt, renderViolation, kindMatches, Value.isNum]
              · simpa [validateEntries, specFirstViolation, specCheckParam,
                  hv, hpt, hmn, hmx, hgt, kindMatches, Value.isNum] using ih
            | none =>
              simpa [validateEntries, specFirstViolation, specCheckParam, hv,
                hpt, hmn, hmx, kindMatches, Value.isNum] using ih
        | string =>
          simp [validateEntries, specFirstViolation, specCheckParam, hv, hpt,
            renderViolation, kindMatches, Value.isNum, Value.isStr,
            Value.isBool]
        | boolean =>
          simp [validateEntries, specFirstViolation, specCheckParam, hv, hpt,
            renderViolation, kindMatches, Value.isNum, Value.isStr,
            Value.isBool]
      | str s' =>
        cases hpt : p.type with
        | string =>
          simpa [validateEntries, specFirstViolation, specCheckParam, hv, hpt,
            kindMatches, Value.isNum, Value.isStr, Value.isBool] using ih
        | number =>
          simp [validateEntries, specFirstViolation, specCheckParam, hv, hpt,
            renderViolation, kindMatches, Value.isNum, Value.isStr,
            Value.isBool]
        | boolean =>
          simp [validateEntries, specFirstViolation, specCheckParam, hv, hpt,
            renderViolation, kindMatches, Value.isNum, Value.isStr,
            Value.isBool]
      | bool b =>
        cases hpt : p.type with
        | boolean =>
          simpa [validateEntries, specFirstViolation, specCheckParam, hv, hpt,
            kindMatches, Value.isNum, Value.isStr, Value.isBool] using ih
        | number =>
          simp [validateEntries, specFirstViolation, specCheckParam, hv, hpt,
            renderViolation, kindMatches, Value.isNum, Value.isStr,
            Value.isBool]
        | string =>
          simp [validateEntries, specFirstViolation, specCheckParam, hv, hpt,
            renderViolation, kindMatches, Value.isNum, Value.isStr,
            Value.isBool]

theorem validateEntries_congr (supplied supplied2 : Params)
    (decls : List (String × ToolParameter))
    (h : ∀ d ∈ decls, supplied d.1 = supplied2 d.1) :
    validateEntries supplied decls = validateEntries supplied2 decls := by
  induction decls with
  | nil => rfl
  | cons d rest ih =>
    obtain ⟨paramName, p⟩ := d
    have hhd : supplied paramName = supplied2 paramName :=
      h _ (List.mem_cons_self _ _)
    have ih' := ih (fun d hd => h d (List.mem_cons_of_mem _ hd))
    simp only [validateEntries, hhd, ih']

/-- C3: validation checks the declared parameters in declaration order and
returns the first violation found, no aggregation: a missing required
parameter, a runtime-type mismatch against the declared kind, or a numeric
bound violation, each rendered as the reason naming the parameter and the
kind or bound (`renderViolation`); if no declared parameter violates a rule
it succeeds; supplied parameters not declared in the schema are silently
ignored — two bags agreeing on the declared names validate identically.
(The function is a pure Lean function, hence deterministic and
side-effect free.) -/
theorem validateParameters_first_violation (tool : Tool) (supplied : Params) :
    validateParameters tool supplied =
      (match specFirstViolation tool.parameters supplied with
       | none => { valid := true }
       | some viol =>
         { valid := false, error := some (renderViolation viol) }) ∧
    (∀ supplied2 : Params,
      (∀ d ∈ tool.parameters, supplied d.1 = supplied2 d.1) →
      validateParameters tool supplied = validateParameters tool supplied2) :=
  ⟨validateEntries_eq_spec supplied tool.parameters,
   fun supplied2 hagree =>
     validateEntries_congr supplied supplied2 tool.parameters hagree⟩

/-- C3 witness: the empty bag violates `tool0`'s required `text` first, and
an undeclared extra parameter changes nothing. -/
theorem validateParameters_first_violation_witness :
    validateParameters tool0 (fun _ => none) =
      (match specFirstViolation tool0.parameters (fun _ => none) with
       | none => { valid := true }
       | some viol =>
         { valid := false, error := some (renderViolation viol) }) ∧
    validateParameters tool0 (fun _ => none) =
      validateParameters tool0
        (fun n => if n = "text" then none else some (Value.num 3)) :=
  ⟨(validateParameters_first_violation tool0 (fun _ => none)).1,
   (validateParameters_first_violation tool0 (fun _ => none)).2
     (fun n => if n = "text" then none else some (Value.num 3))
     (by intro d hd; simp [tool0] at hd; subst hd; rfl)⟩

/-- C2: when `run(x)` completes normally, the resulting transcript equals
the prior transcript with exactly a user message carrying `x`, then an
(optional) tool message present iff the decide-phase outcome was a tool
call, then an (optional) assistant message present iff the relevant oracle
outcome (the decide outcome when no tool was called, the summarize outcome
otherwise) yielded text — appended in that order, no prior message altered
or removed. -/
theorem run_transcript_append_only (agent : Agent) (oracle : Oracle)
    (st : ExecState) (x : String) (msgs : List Message)
    (hok : (run agent oracle st x).1 = Except.ok msgs) :
    ∃ (tm am : Option Message),
      msgs = st.messages ++ [userMsg x] ++ tm.toList ++ am.toList ∧
      (∀ m, tm = some m → m.role = Role.tool) ∧
      (∀ m, am = some m → m.role = Role.assistant) ∧
      ((∃ r tc,
          oracle agent.prompt (st.messages ++ [userMsg x]) agent.tools =
            Except.ok r ∧ r.toolCall = some tc) ↔ tm.isSome = true) ∧
      (∀ r,
        oracle agent.prompt (st.messages ++ [userMsg x]) agent.tools =
          Except.ok r →
        (r.toolCall = none → (am.isSome = true ↔ r.text.isSome = true)) ∧
        (∀ tc, r.toolCall = some tc →
          ∀ f,
            oracle agent.prompt
                (st.messages ++ [userMsg x, toolMsg (executeTool agent tc)])
                agent.tools = Except.ok f →
            (am.isSome = true ↔ f.text.isSome = true))) := by
  have h : st.isRunning = false := by
    cases hb : st.isRunning
    · rfl
    · rw [run_guard agent oracle st x hb] at hok
      simp at hok
  cases hor : oracle agent.prompt (st.messages ++ [userMsg x]) agent.tools with
  | error e =>
    rw [run_decide_error agent oracle st x e h hor] at hok
    simp at hok
  | ok r =>
    cases htc : r.toolCall with
    | none =>
      cases htx : r.text with
      | none =>
        rw [run_malformed agent oracle st x r h hor htc htx] at hok
        simp only [Except.ok.injEq] at hok
        subst hok
        refine ⟨none, none, by simp, by simp, by simp, ?_, ?_⟩
        · refine iff_of_false ?_ (by simp)
          rintro ⟨r', tc, hr', htc'⟩
          injection hr' with he
          subst he
          rw [htc] at htc'
          simp at htc'
        · intro r' hr'
          injection hr' with he
          subst he
          constructor
          · intro _
            simp [htx]
          · intro tc htc'
            rw [htc] at htc'
            simp at htc'
      | some t =>
        rw [run_direct_text agent oracle st x r t h hor htc htx] at hok
        simp only [Except.ok.injEq] at hok
        subst hok
        refine ⟨none, some (assistantMsg t), by simp, by simp, ?_, ?_, ?_⟩
        · intro m hm
          injection hm with hm
          subst hm
          rfl
        · refine iff_of_false ?_ (by simp)
          rintro ⟨r', tc, hr', htc'⟩
          injection hr' with he
          subst he
          rw [htc] at htc'
          simp at htc'
        · intro r' hr'
          injection hr' with he
          subst he
          constructor
          · intro _
            simp [htx]
          · intro tc htc'
            rw [htc] at htc'
            simp at htc'
    | some tc =>
      cases hsum : oracle agent.prompt
          (st.messages ++ [userMsg x, toolMsg (executeTool agent tc)])
          agent.tools with
      | error e =>
        rw [run_tool_sum_error agent oracle st x r tc e h hor htc hsum] at hok
        simp at hok
      | ok f =>
        cases htx : f.text with
        | none =>
          rw [run_tool_silent agent oracle st x r tc f h hor htc hsum htx] at hok
          simp only [Except.ok.injEq] at hok
          subst hok
          refine ⟨some (toolMsg (executeTool agent tc)), none,
            by simp, ?_, by simp, ?_, ?_⟩
          · intro m hm
            injection hm with hm
            subst hm
            rfl
          · exact iff_of_true ⟨r, tc, rfl, htc⟩ (by simp)
          · intro r' hr'
            injection hr' with he
            subst he
            constructor
            · intro hnone
              rw [htc] at hnone
              simp at hnone
            · intro tc' htc'
              rw [htc] at htc'
              injection htc' with htc'
              subst htc'
              intro f' hf'
              rw [hsum] at hf'
              injection hf' with hf'
              subst hf'
              simp [htx]
        | some t =>
          rw [run_tool_text agent oracle st x r tc f t h hor htc hsum htx] at hok
          simp only [Except.ok.injEq] at hok
          subst hok
          refine ⟨some (toolMsg (executeTool agent tc)), some (assistantMsg t),
            by simp, ?_, ?_, ?_, ?_⟩
          · intro m hm
            injection hm with hm
            subst hm
            rfl
          · intro m hm
            injection hm with hm
            subst hm
            rfl
          · exact iff_of_true ⟨r, tc, rfl, htc⟩ (by simp)
          · intro r' hr'
            injection hr' with he
            subst he
            constructor
            · intro hnone
              rw [htc] at hnone
              simp at hnone
            · intro tc' htc'
              rw [htc] at htc'
              injection htc' with htc'
              subst htc'
              intro f' hf'
              rw [hsum] at hf'
              injection hf' with hf'
              subst hf'
              simp [htx]

/-- C2 witness: a concrete direct-text turn appends exactly the user and
assistant messages. -/
theorem run_transcript_append_only_witness :
    ∃ (tm am : Option Message),
      [userMsg "hi", assistantMsg "ok"] =
        st0.messages ++ [userMsg "hi"] ++ tm.toList ++ am.toList ∧
      (∀ m, tm = some m → m.role = Role.tool) ∧
      (∀ m, am = some m → m.role = Role.assistant) ∧
      ((∃ r tc,
          oracle0 agent0.prompt (st0.messages ++ [userMsg "hi"]) agent0.tools =
            Except.ok r ∧ r.toolCall = some tc) ↔ tm.isSome = true) ∧
      (∀ r,
        oracle0 agent0.prompt (st0.messages ++ [userMsg "hi"]) agent0.tools =
          Except.ok r →
        (r.toolCall = none → (am.isSome = true ↔ r.text.isSome = true)) ∧
        (∀ tc, r.toolCall = some tc →
          ∀ f,
            oracle0 agent0.prompt
                (st0.messages ++
                  [userMsg "hi", toolMsg (executeTool agent0 tc)])
                agent0.tools = Except.ok f →
            (am.isSome = true ↔ f.text.isSome = true))) :=
  run_transcript_append_only agent0 oracle0 st0 "hi"
    [userMsg "hi", assistantMsg "ok"] rfl

/-- Replacing every tool body in a list leaves name-based lookup acting on
the modified tools: the body plays no part in lookup. -/
theorem find?_map_execute (tools : List Tool) (nm : String)
    (g : Params → Except String String) :
    (tools.map (fun t => { t with execute := g })).find?
        (fun t => t.name == nm) =
      (tools.find? (fun t => t.name == nm)).map
        (fun t => { t with execute := g }) := by
  rw [List.find?_map]
  rfl

/-- C4: all domain failures during a tool call are folded into a failure
`ToolResult` and never thrown to `run`'s caller: on validation failure the
result carries the validator's first-violation reason and the tool body is
never invoked (the result is the same whatever body every tool is given);
any error raised by the tool body is caught at the dispatch boundary and
becomes a failure `ToolResult` carrying the error's message text; and the
only errors `run` ever surfaces are the concurrency guard and an error of
the oracle adapter itself — never a tool failure. -/
theorem domain_failures_folded (agent : Agent) (tc : ToolCall) (tool : Tool)
    (hfind : agent.tools.find? (fun t => t.name == tc.toolName) = some tool) :
    ((validateParameters tool tc.parameters).valid = false →
      executeTool agent tc =
        { toolName := tc.toolName, success := false,
          error := (validateParameters tool tc.parameters).error } ∧
      ∀ g, executeTool
          { agent with
            tools := agent.tools.map (fun t => { t with execute := g }) } tc =
        { toolName := tc.toolName, success := false,
          error := (validateParameters tool tc.parameters).error }) ∧
    ((validateParameters tool tc.parameters).valid = true →
      ∀ e, tool.execute tc.parameters = Except.error e →
        executeTool agent tc =
          { toolName := tc.toolName, success := false, error := some e }) ∧
    (∀ (oracle : Oracle) (st : ExecState) (x : String) (err : RunError),
      (run agent oracle st x).1 = Except.error err →
        err = RunError.alreadyRunning ∨
        ∃ msgs e, oracle agent.prompt msgs agent.tools = Except.error e ∧
          err = RunError.oracleError e) := by
  refine ⟨?_, ?_, ?_⟩
  · intro hval
    constructor
    · simp [executeTool, hfind, hval]
    · intro g
      have hval' : (validateEntries tc.parameters tool.parameters).valid =
          false := hval
      simp only [executeTool, find?_map_execute, hfind, Option.map_some]
      simp [validateParameters, hval']
  · intro hval e hexec
    simp [executeTool, hfind, hval, hexec]
  · intro oracle st x err herr
    cases hb : st.isRunning with
    | true =>
      left
      rw [run_guard agent oracle st x hb] at herr
      simp only [Except.error.injEq] at herr
      exact herr.symm
    | false =>
      cases hor : oracle agent.prompt (st.messages ++ [userMsg x])
          agent.tools with
      | error e =>
        right
        rw [run_decide_error agent oracle st x e hb hor] at herr
        simp only [Except.error.injEq] at herr
        exact ⟨st.messages ++ [userMsg x], e, hor, herr.symm⟩
      | ok r =>
        cases htc : r.toolCall with
        | none =>
          cases htx : r.text with
          | none =>
            rw [run_malformed agent oracle st x r hb hor htc htx] at herr
            simp at herr
          | some t =>
            rw [run_direct_text agent oracle st x r t hb hor htc htx] at herr
            simp at herr
        | some tcall =>
          cases hsum : oracle agent.prompt
              (st.messages ++ [userMsg x, toolMsg (executeTool agent tcall)])
              agent.tools with
          | error e =>
            right
            rw [run_tool_sum_error agent oracle st x r tcall e hb hor htc hsum]
              at herr
            simp only [Except.error.injEq] at herr
            exact ⟨st.messages ++ [userMsg x, toolMsg (executeTool agent tcall)],
              e, hsum, herr.symm⟩
          | ok f =>
            cases htx : f.text with
            | none =>
              rw [run_tool_silent agent oracle st x r tcall f hb hor htc hsum htx]
                at herr
              simp at herr
            | some t =>
              rw [run_tool_text agent oracle st x r tcall f t hb hor htc hsum htx]
                at herr
              simp at herr

/-- C4 witness: a tool body raising "empty input" is folded into a failure
`ToolResult` carrying exactly that text. -/
theorem domain_failures_folded_witness :
    executeTool agent1 tcallEmpty =
      { toolName := "echo", success := false, error := some "empty input" } :=
  (domain_failures_folded agent1 tcallEmpty tool0 rfl).2.1 rfl "empty input" rfl

/-- C5: every run performs at most one tool invocation.  In a tool-call
turn whose summarize-phase oracle call returns `f`, the run result is fully
determined without reference to `f.toolCall` (spelled out: the transcript
gains exactly the user message, the single tool message, and an assistant
message iff `f.text` is present — a summarize outcome with no text adds no
message); the appended segment holds exactly one tool-role message; and
replacing the toolCall component of every later-phase oracle response by an
arbitrary one leaves the run result unchanged — the summarize-phase tool
call is never executed. -/
theorem single_tool_hop (agent : Agent) (oracle : Oracle) (st : ExecState)
    (x : String) (r : LLMResponse) (tc : ToolCall) (f : LLMResponse)
    (h : st.isRunning = false)
    (hor : oracle agent.prompt (st.messages ++ [userMsg x]) agent.tools =
      Except.ok r)
    (htc : r.toolCall = some tc)
    (hsum : oracle agent.prompt
        (st.messages ++ [userMsg x, toolMsg (executeTool agent tc)])
        agent.tools = Except.ok f) :
    run agent oracle st x =
      (Except.ok (st.messages ++ [userMsg x, toolMsg (executeTool agent tc)] ++
        (match f.text with
         | some t => [assistantMsg t]
         | none => [])),
       { messages :=
          st.messages ++ [userMsg x, toolMsg (executeTool agent tc)] ++
            (match f.text with
             | some t => [assistantMsg t]
             | none => []),
         isRunning := false }) ∧
    ((st.messages ++ [userMsg x, toolMsg (executeTool agent tc)] ++
        (match f.text with
         | some t => [assistantMsg t]
         | none => [])).drop st.messages.length).countP
      (fun m => m.role == Role.tool) = 1 ∧
    (∀ tc2 : Option ToolCall,
      run agent
        (fun p m tl =>
          if m = st.messages ++ [userMsg x] then oracle p m tl
          else (oracle p m tl).map
            (fun resp => { resp with toolCall := tc2 }))
        st x = run agent oracle st x) := by
  have hne : st.messages ++ [userMsg x, toolMsg (executeTool agent tc)] ≠
      st.messages ++ [userMsg x] := by
    intro he
    have hlen := congrArg List.length he
    simp at hlen
  refine ⟨?_, ?_, ?_⟩
  · cases htx : f.text with
    | some t =>
      rw [run_tool_text agent oracle st x r tc f t h hor htc hsum htx]
      simp [List.append_assoc]
    | none =>
      rw [run_tool_silent agent oracle st x r tc f h hor htc hsum htx]
      simp
  · rw [List.append_assoc, List.drop_left]
    cases htx : f.text with
    | some t =>
      simp [List.countP_cons, List.countP_append, userMsg, toolMsg, assistantMsg]
    | none =>
      simp [List.countP_cons, List.countP_append, userMsg, toolMsg]
  · intro tc2
    have hor2 : (fun p m tl =>
        if m = st.messages ++ [userMsg x] then oracle p m tl
        else (oracle p m tl).map
          (fun resp => { resp with toolCall := tc2 }))
        agent.prompt (st.messages ++ [userMsg x]) agent.tools =
        Except.ok r := by
      simp [hor]
    have hsum2 : (fun p m tl =>
        if m = st.messages ++ [userMsg x] then oracle p m tl
        else (oracle p m tl).map
          (fun resp => { resp with toolCall := tc2 }))
        agent.prompt
        (st.messages ++ [userMsg x, toolMsg (executeTool agent tc)])
        agent.tools =
        Except.ok { f with toolCall := tc2 } := by
      simp [hne, hsum, Except.map]
    cases htx : f.text with
    | some t =>
      rw [run_tool_text agent oracle st x r tc f t h hor htc hsum htx]
      rw [run_tool_text agent _ st x r tc { f with toolCall := tc2 } t h hor2
        htc hsum2 htx]
    | none =>
      rw [run_tool_silent agent oracle st x r tc f h hor htc hsum htx]
      rw [run_tool_silent agent _ st x r tc { f with toolCall := tc2 } h hor2
        htc hsum2 htx]

/-- C5 witness: a concrete tool-call turn with a text summarize outcome. -/
theorem single_tool_hop_witness :
    run agent0 oracleTC st0 "hi" =
      (Except.ok [userMsg "hi", toolMsg (executeTool agent0 tcall0),
        assistantMsg "done"],
       { messages := [userMsg "hi", toolMsg (executeTool agent0 tcall0),
          assistantMsg "done"],
         isRunning := false }) :=
  (single_tool_hop agent0 oracleTC st0 "hi" { toolCall := some tcall0 } tcall0
    { text := some "done" } rfl rfl rfl rfl).1

/-- C6: when the decide-phase outcome requests a tool matching no tool in
the agent's list (exact, case-sensitive `find?` by name), the tool message
`run` appends is tool-role, has content exactly
`Error: Tool "<name>" not found` and no `toolResult`; the transcript gains
that message right after the user message; and the only error such a run
can surface is one thrown by the oracle adapter itself — never an exception
from the unknown tool. -/
theorem unknown_tool_not_found (agent : Agent) (oracle : Oracle)
    (st : ExecState) (x : String) (r : LLMResponse) (tc : ToolCall)
    (h : st.isRunning = false)
    (hor : oracle agent.prompt (st.messages ++ [userMsg x]) agent.tools =
      Except.ok r)
    (htc : r.toolCall = some tc)
    (hnf : agent.tools.find? (fun t => t.name == tc.toolName) = none) :
    (toolMsg (executeTool agent tc)).role = Role.tool ∧
    (toolMsg (executeTool agent tc)).content =
      "Error: " ++ ("Tool \"" ++ tc.toolName ++ "\" not found") ∧
    (toolMsg (executeTool agent tc)).toolResult = none ∧
    (∃ rest, ((run agent oracle st x).2).messages =
      st.messages ++ [userMsg x, toolMsg (executeTool agent tc)] ++ rest) ∧
    (∀ err, (run agent oracle st x).1 = Except.error err →
      ∃ e, err = RunError.oracleError e) := by
  refine ⟨rfl, ?_, ?_, ?_, ?_⟩
  · simp [toolMsg, executeTool, hnf]
  · simp [toolMsg, executeTool, hnf]
  · cases hsum : oracle agent.prompt
        (st.messages ++ [userMsg x, toolMsg (executeTool agent tc)])
        agent.tools with
    | error e =>
      rw [run_tool_sum_error agent oracle st x r tc e h hor htc hsum]
      exact ⟨[], by simp⟩
    | ok f =>
      cases htx : f.text with
      | none =>
        rw [run_tool_silent agent oracle st x r tc f h hor htc hsum htx]
        exact ⟨[], by simp⟩
      | some t =>
        rw [run_tool_text agent oracle st x r tc f t h hor htc hsum htx]
        exact ⟨[assistantMsg t], by simp⟩
  · intro err herr
    cases hsum : oracle agent.prompt
        (st.messages ++ [userMsg x, toolMsg (executeTool agent tc)])
        agent.tools with
    | error e =>
      rw [run_tool_sum_error agent oracle st x r tc e h hor htc hsum] at herr
      simp only [Except.error.injEq] at herr
      exact ⟨e, herr.symm⟩
    | ok f =>
      cases htx : f.text with
      | none =>
        rw [run_tool_silent agent oracle st x r tc f h hor htc hsum htx] at herr
        simp at herr
      | some t =>
        rw [run_tool_text agent oracle st x r tc f t h hor htc hsum htx] at herr
        simp at herr

/-- C6 witness: requesting `doesNotExist` against the tool-less `agent0`. -/
theorem unknown_tool_not_found_witness :
    (toolMsg (executeTool agent0 tcall0)).role = Role.tool ∧
    (toolMsg (executeTool agent0 tcall0)).content =
      "Error: " ++ ("Tool \"" ++ "doesNotExist" ++ "\" not found") ∧
    (toolMsg (executeTool agent0 tcall0)).toolResult = none ∧
    (∃ rest, ((run agent0 oracleTC st0 "hi").2).messages =
      st0.messages ++ [userMsg "hi", toolMsg (executeTool agent0 tcall0)] ++
        rest) ∧
    (∀ err, (run agent0 oracleTC st0 "hi").1 = Except.error err →
      ∃ e, err = RunError.oracleError e) :=
  unknown_tool_not_found agent0 oracleTC st0 "hi" { toolCall := some tcall0 }
    tcall0 rfl rfl rfl rfl
